import Mathlib

/-!
Verification development for the conversational intent pipeline of the
`local_claude` repository: a shallow embedding of

* `src/core/nlp_parser.py`     (intent classifier),
* `src/core/conversation_engine.py` (conversation context store),
* `src/core/intent_router.py`  (intent router),
* `src/core/response_generator.py` (confidence-level computation),

followed by theorems settling the frozen claims about the pipeline.

Modelling conventions:
* Python floats are modelled as exact rationals (`ℚ`).
* Wall-clock reads (`time.time()`) are modelled as explicit `now : ℚ`
  parameters threaded through the operations that read the clock.
* Python dicts with insertion order are modelled as association lists
  preserving that order.
* `re.search` on the classifier's patterns is modelled by a
  Brzozowski-derivative matcher over a regex syntax tree; each pattern
  string of the source is transcribed into that syntax.  The lazy
  quantifier `.*?` has the same matching *existence* semantics as `.*`,
  which is all `re.search` truthiness uses.
* Python's `x or default` (which replaces falsy values, so also the
  empty string) is modelled by `orDefault`.
-/

namespace LocalClaude

/-! ### Regular-expression engine (models `re.search` truthiness) -/

/-- Regex syntax: empty language, empty word, single char, character
class (`cls neg cs` matches `c` iff `(c ∈ cs) ≠ neg`), alternation,
concatenation, Kleene star. -/
inductive Re where
  | emp : Re
  | eps : Re
  | chr : Char → Re
  | cls : Bool → List Char → Re
  | alt : Re → Re → Re
  | cat : Re → Re → Re
  | star : Re → Re
deriving DecidableEq

/-- Does the regex accept the empty word? -/
def Re.nullable : Re → Bool
  | .emp => false
  | .eps => true
  | .chr _ => false
  | .cls _ _ => false
  | .alt a b => a.nullable || b.nullable
  | .cat a b => a.nullable && b.nullable
  | .star _ => true

/-- Smart alternation (drops the empty language). -/
def mkAlt : Re → Re → Re
  | .emp, b => b
  | a, .emp => a
  | a, b => .alt a b

/-- Smart concatenation (absorbs `emp`, drops `eps`). -/
def mkCat : Re → Re → Re
  | .emp, _ => .emp
  | _, .emp => .emp
  | .eps, b => b
  | a, .eps => a
  | a, b => .cat a b

/-- Brzozowski derivative with respect to one character. -/
def Re.deriv : Re → Char → Re
  | .emp, _ => .emp
  | .eps, _ => .emp
  | .chr c, x => if x = c then .eps else .emp
  | .cls n cs, x => if (cs.contains x) ≠ n then .eps else .emp
  | .alt a b, x => mkAlt (a.deriv x) (b.deriv x)
  | .cat a b, x =>
      if a.nullable then mkAlt (mkCat (a.deriv x) b) (b.deriv x)
      else mkCat (a.deriv x) b
  | .star a, x => mkCat (a.deriv x) (.star a)

/-- Full match of a regex against a character list. -/
def rmatch (r : Re) (s : List Char) : Bool :=
  (s.foldl Re.deriv r).nullable

/-- Literal string regex. -/
def lit (s : String) : Re :=
  s.data.foldr (fun c r => Re.cat (Re.chr c) r) Re.eps

/-- Model of `(?:a|b|…)` — ordered alternation of a pattern list. -/
def orList : List Re → Re
  | [] => Re.emp
  | [r] => r
  | r :: rs => Re.alt r (orList rs)

/-- Model of `.` of Python `re`: any character except a newline. -/
def dotAny : Re := Re.cls true ['\n']

/-- Model of `.*?` — for match existence identical to `.*`. -/
def dotQ : Re := Re.star dotAny

/-- Unanchored-search padding: truly any character. -/
def pad : Re := Re.star (Re.cls true [])

/-- Model of `re.search(pattern, text)` truthiness: some substring matches. -/
def reSearch (r : Re) (s : String) : Bool :=
  rmatch (Re.cat pad (Re.cat r pad)) s.data

/-- Substring test on character lists (Python's `needle in haystack`). -/
def containsSub : List Char → List Char → Bool
  | needle, [] => needle.isEmpty
  | needle, hay@(_ :: t) => needle.isPrefixOf hay || containsSub needle t

/-- Python's `needle in text` for strings. -/
def containsStr (needle hay : String) : Bool :=
  containsSub needle.data hay.data

/-! ### Intent data model (`src/core/nlp_parser.py`) -/

/-- Model of `IntentType` — the closed intent set. -/
inductive IntentType where
  | analyze | create | modify | find | explain
  | optimize | test | status | help | unknown
deriving DecidableEq

/-- Model of `IntentType.value` — the string value of each enum member. -/
def IntentType.value : IntentType → String
  | .analyze => "analyze"
  | .create => "create"
  | .modify => "modify"
  | .find => "find"
  | .explain => "explain"
  | .optimize => "optimize"
  | .test => "test"
  | .status => "status"
  | .help => "help"
  | .unknown => "unknown"

/-- Model of `ParsedIntent` dataclass.  `action_details = None` of the empty-input
path is modelled as the empty list, which is consumed identically
(Python only ever iterates it or tests its truthiness). -/
structure ParsedIntent where
  intent : IntentType
  confidence : ℚ
  target : Option String
  actionDetails : List (String × String)
  originalText : String
deriving DecidableEq

/-- One pattern group of `_load_intent_patterns`: regex alternatives, a
base confidence weight, and keywords. -/
structure PatternGroup where
  patterns : List Re
  confidence : ℚ
  keywords : List String
deriving DecidableEq

/-- Model of `IntentType.ANALYZE` group (patterns transcribed from the regex
strings of `_load_intent_patterns`). -/
def analyzeGroup : PatternGroup where
  patterns :=
    [ Re.cat (lit "analiz") (Re.cat (Re.cls false ['a', 'e'])
        (Re.cat dotQ (orList [lit "proyecto", lit "código", lit "archivo", lit "este", lit "esto"])))
    , Re.cat (lit "revisa") (Re.cat dotQ (orList [lit "código", lit "proyecto", lit "archivo"]))
    , Re.cat (lit "qué") (Re.cat dotQ (orList [lit "problemas", lit "issues", lit "errores"]))
    , Re.cat (lit "dame") (Re.cat dotQ (orList [lit "análisis", lit "reporte", lit "resumen"]))
    , Re.cat (lit "examina") (Re.cat dotQ (orList [lit "este", lit "esto", lit "el", lit "la"])) ]
  confidence := 0.9
  keywords := ["analizar", "revisar", "problemas", "análisis", "examinar", "evaluar"]

/-- Model of `IntentType.CREATE` group. -/
def createGroup : PatternGroup where
  patterns :=
    [ Re.cat (lit "crea") (Re.cat dotQ (orList [lit "archivo", lit "proyecto", lit "función", lit "clase"]))
    , Re.cat (lit "genera") (Re.cat dotQ (orList [lit "código", lit "archivo", lit "proyecto"]))
    , Re.cat (lit "hacer") (Re.cat dotQ (orList [lit "nuevo", lit "nueva", lit "un", lit "una"]))
    , Re.cat (lit "construye") (Re.cat dotQ (orList [lit "proyecto", lit "aplicación", lit "api"]))
    , Re.cat (lit "implementa") (Re.cat dotQ (orList [lit "función", lit "clase", lit "método"])) ]
  confidence := 0.85
  keywords := ["crear", "generar", "nuevo", "nueva", "construir", "implementar", "hacer"]

/-- Model of `IntentType.FIND` group. -/
def findGroup : PatternGroup where
  patterns :=
    [ Re.cat (lit "busca") (Re.cat dotQ (orList [lit "archivo", lit "función", lit "clase", lit "patrón"]))
    , Re.cat (lit "encuentra") (Re.cat dotQ (orList [lit "donde", lit "dónde", lit "el", lit "la"]))
    , Re.cat (orList [lit "donde", lit "dónde"]) (Re.cat dotQ (orList [lit "está", lit "se encuentra"]))
    , Re.cat (lit "localiza") (Re.cat dotQ (orList [lit "archivo", lit "función", lit "código"])) ]
  confidence := 0.8
  keywords := ["buscar", "encontrar", "donde", "dónde", "localizar", "ubicar"]

/-- Model of `IntentType.OPTIMIZE` group. -/
def optimizeGroup : PatternGroup where
  patterns :=
    [ Re.cat (lit "optimiza") (Re.cat dotQ (orList [lit "código", lit "performance", lit "rendimiento"]))
    , Re.cat (lit "mejora") (Re.cat dotQ (orList [lit "velocidad", lit "performance", lit "eficiencia"]))
    , Re.cat (lit "acelera") (Re.cat dotQ (orList [lit "esto", lit "función", lit "código"]))
    , Re.cat (lit "reduce") (Re.cat dotQ (orList [lit "tiempo", lit "latencia", lit "memoria"])) ]
  confidence := 0.8
  keywords := ["optimizar", "mejorar", "acelerar", "performance", "rendimiento", "eficiencia"]

/-- Model of `IntentType.EXPLAIN` group. -/
def explainGroup : PatternGroup where
  patterns :=
    [ Re.cat (lit "explica") (Re.cat dotQ (orList [lit "como", lit "cómo", lit "qué", lit "este", lit "esto"]))
    , Re.cat (orList [lit "como", lit "cómo"]) (Re.cat dotQ (orList [lit "funciona", lit "trabaja", lit "opera"]))
    , Re.cat (lit "qué") (Re.cat dotQ (orList [lit "hace", lit "significa", lit "es"]))
    , Re.cat (lit "describe") (Re.cat dotQ (orList [lit "el", lit "la", lit "este", lit "esto"])) ]
  confidence := 0.75
  keywords := ["explicar", "como", "cómo", "qué", "describe", "significa"]

/-- Model of `IntentType.STATUS` group. -/
def statusGroup : PatternGroup where
  patterns :=
    [ Re.cat (orList [lit "estado", lit "status", lit "situación"]) (Re.cat dotQ (orList [lit "actual", lit "del", lit "de"]))
    , Re.cat (lit "como") (Re.cat dotQ (Re.cat (orList [lit "está", lit "van", lit "va"]) (Re.cat dotQ (orList [lit "proyecto", lit "desarrollo"]))))
    , Re.cat (lit "progreso") (Re.cat dotQ (orList [lit "actual", lit "del", lit "de"]))
    , Re.cat (lit "métricas") (Re.cat dotQ (orList [lit "sistema", lit "proyecto"])) ]
  confidence := 0.9
  keywords := ["estado", "status", "progreso", "métricas", "situación"]

/-- Model of `IntentType.HELP` group. -/
def helpGroup : PatternGroup where
  patterns :=
    [ Re.cat (lit "ayuda") (Re.cat dotQ (orList [lit "con", lit "a", lit "para"]))
    , Re.cat (orList [lit "como", lit "cómo"]) (Re.cat dotQ (orList [lit "puedo", lit "debo", lit "hago"]))
    , Re.cat (lit "no") (Re.cat dotQ (orList [lit "sé", lit "entiendo", lit "comprendo"]))
    , Re.cat (lit "qué") (Re.cat dotQ (orList [lit "comandos", lit "opciones", lit "puedo"])) ]
  confidence := 0.8
  keywords := ["ayuda", "como", "cómo", "puedo", "debo", "comandos", "opciones"]

/-- Model of `_load_intent_patterns`: ordered table of intents with their pattern
groups (Python dict insertion order = this list order). -/
def intentPatterns : List (IntentType × List PatternGroup) :=
  [ (IntentType.analyze, [analyzeGroup])
  , (IntentType.create, [createGroup])
  , (IntentType.find, [findGroup])
  , (IntentType.optimize, [optimizeGroup])
  , (IntentType.explain, [explainGroup])
  , (IntentType.status, [statusGroup])
  , (IntentType.help, [helpGroup]) ]

/-- Model of `_calculate_confidence`: regex-match bonus plus keyword bonus,
clamped to 1. -/
def calculateConfidence (text : String) (g : PatternGroup) : ℚ :=
  let baseConfidence := g.confidence
  let patternMatches := g.patterns.countP (fun p => reSearch p text)
  let conf1 : ℚ := if patternMatches > 0 then baseConfidence * 0.8 else 0
  let keywordMatches := g.keywords.countP (fun k => containsStr k.toLower text)
  let conf2 : ℚ :=
    if keywordMatches > 0 then 0.5 * ((keywordMatches : ℚ) / (g.keywords.length : ℚ)) else 0
  min (conf1 + conf2) 1

/-! ### Python string helpers -/

/-- Python `\s` (ASCII whitespace; the classifier's inputs are scanned
after `.lower().strip()`). -/
def wsChars : List Char := [' ', '\t', '\n', '\r', Char.ofNat 11, Char.ofNat 12]

/-- Is the character whitespace? -/
def isSpaceChar (c : Char) : Bool := wsChars.contains c

/-- Python `str.lower()` (ASCII case folding; accented letters used by
the source are already lower case). -/
def pyLower (s : String) : String := ⟨s.data.map Char.toLower⟩

/-- Python `str.strip()`. -/
def pyStrip (s : String) : String :=
  ⟨((s.data.dropWhile isSpaceChar).reverse.dropWhile isSpaceChar).reverse⟩

/-- Python `x or default` for optional strings: the default replaces
`None` and the falsy empty string. -/
def orDefault (x : Option String) (d : String) : String :=
  match x with
  | none => d
  | some s => if s = "" then d else s

/-- Python truthiness of an optional string (`None` and `""` are falsy). -/
def truthyStr (x : Option String) : Option String :=
  match x with
  | none => none
  | some s => if s = "" then none else some s

/-! ### Target extraction (`_extract_target`)

The nine `target_patterns` regexes have three shapes; each is modelled
by a hand transcription of `re.search(...).group(1)` (leftmost match,
alternatives in order at each position, greedy `\s+`, greedy capture).
-/

/-- At one position: try `(?:w₁|w₂|…)\s+([^\s]+)` alternatives in order;
the capture is the maximal non-space token after the whitespace run. -/
def kwTargetAt : List String → List Char → Option (List Char)
  | [], _ => none
  | w :: rest, s =>
      if w.data.isPrefixOf s then
        let r := s.drop w.length
        match r with
        | [] => kwTargetAt rest s
        | c :: _ =>
            if isSpaceChar c then
              let tok := (r.dropWhile isSpaceChar).takeWhile (fun x => !isSpaceChar x)
              if tok.isEmpty then kwTargetAt rest s else some tok
            else kwTargetAt rest s
      else kwTargetAt rest s

/-- Scan positions left to right with a per-position matcher
(`re.search` leftmost-match order). -/
def scanPos (f : List Char → Option (List Char)) : List Char → Option (List Char)
  | [] => f []
  | s@(_ :: t) =>
      match f s with
      | some r => some r
      | none => scanPos f t

/-- Largest `k ≥ 1` (checked downward) such that `ext` occurs in `run`
at offset `k` — the backtracking point of greedy `[^\s]+` before a
literal suffix. -/
def bestExtOffset (ext run : List Char) : Nat → Option Nat
  | 0 => none
  | k + 1 =>
      if ext.isPrefixOf (run.drop (k + 1)) then some (k + 1)
      else bestExtOffset ext run k

/-- At one position: `([^\s]+<ext>)` (e.g. `([^\s]+\.py)`); the greedy
match takes the largest offset of the literal suffix inside the
non-space run starting here. -/
def extTargetAt (ext : String) (s : List Char) : Option (List Char) :=
  let run := s.takeWhile (fun x => !isSpaceChar x)
  match bestExtOffset ext.data run (run.length - ext.length) with
  | some k => some (run.take (k + ext.length))
  | none => none

/-- At one position: `([^\s]+/[^\s]*)`; a match needs a `/` at offset
≥ 1 of the non-space run, and greediness makes the capture the whole
run. -/
def slashTargetAt (s : List Char) : Option (List Char) :=
  let run := s.takeWhile (fun x => !isSpaceChar x)
  if (run.drop 1).contains '/' then some run else none

/-- Model of `_extract_target`: ordered `target_patterns`; first pattern with a
match wins, returning its capture group.  (The `intent` parameter is
unused in the source as well.) -/
def extractTarget (text : String) (_intent : IntentType) : Option String :=
  let s := text.data
  let results : List (Option (List Char)) :=
    [ scanPos (kwTargetAt ["archivo", "file", "fichero"]) s
    , scanPos (kwTargetAt ["proyecto", "project"]) s
    , scanPos (kwTargetAt ["función", "function", "método", "method"]) s
    , scanPos (kwTargetAt ["clase", "class"]) s
    , scanPos (kwTargetAt ["este", "esto", "el", "la"]) s
    , scanPos (extTargetAt ".py") s
    , scanPos (extTargetAt ".js") s
    , scanPos (extTargetAt ".json") s
    , scanPos slashTargetAt s ]
  ((results.find? Option.isSome).join).map (fun cs => (⟨cs⟩ : String))

/-- Model of `_extract_action_details`: intent-specific detail extraction. -/
def extractActionDetails (text : String) (intent : IntentType) : List (String × String) :=
  match intent with
  | .analyze =>
      if containsStr "problemas" text || containsStr "errores" text || containsStr "issues" text then
        [("focus", "issues")]
      else if containsStr "performance" text || containsStr "rendimiento" text then
        [("focus", "performance")]
      else if containsStr "métricas" text || containsStr "estadísticas" text then
        [("focus", "metrics")]
      else
        [("focus", "general")]
  | .create =>
      if containsStr "api" text || containsStr "servidor" text then [("type", "api")]
      else if containsStr "web" text || containsStr "frontend" text then [("type", "web")]
      else if containsStr "función" text || containsStr "método" text then [("type", "function")]
      else if containsStr "clase" text then [("type", "class")]
      else []
  | .optimize =>
      if containsStr "memoria" text then [("target", "memory")]
      else if containsStr "velocidad" text || containsStr "tiempo" text then [("target", "speed")]
      else if containsStr "cpu" text then [("target", "cpu")]
      else []
  | _ => []

/-! ### The classifier (`parse`) -/

/-- One step of the best-match loop of `parse`: update the running best
on a strictly greater confidence. -/
def bestStep (text : String) (b : IntentType × ℚ) (p : IntentType × PatternGroup) :
    IntentType × ℚ :=
  let c := calculateConfidence text p.2
  if c > b.2 then (p.1, c) else b

/-- The nested best-match loops of `parse` over the pattern table,
starting from `(UNKNOWN, 0.0)`. -/
def parseCore (text : String) : IntentType × ℚ :=
  intentPatterns.foldl
    (fun b ip => ip.2.foldl (fun b' g => bestStep text b' (ip.1, g)) b)
    (IntentType.unknown, 0)

/-- Model of `NLPParser.parse`. -/
def parse (text : String) : ParsedIntent :=
  if text = "" ∨ pyStrip text = "" then
    { intent := IntentType.unknown, confidence := 0, target := none,
      actionDetails := [], originalText := text }
  else
    let textLower := pyStrip (pyLower text)
    let best := parseCore textLower
    { intent := best.1
      confidence := best.2
      target := extractTarget textLower best.1
      actionDetails := extractActionDetails textLower best.1
      originalText := text }

set_option maxRecDepth 100000

example : (parse "Analiza este proyecto").intent = IntentType.analyze := by
  with_unfolding_all rfl

example : (parse "Analiza este proyecto").confidence = 0.72 := by
  with_unfolding_all rfl

example : (parse "").intent = IntentType.unknown := by with_unfolding_all rfl

example : (parse "x").intent = IntentType.unknown := by with_unfolding_all rfl

example : (parse "x").confidence = 0 := by with_unfolding_all rfl

example : (parse "archivo main.py revisa").target = some "main.py" := by
  with_unfolding_all rfl

/-! ### Conversation context store (`src/core/conversation_engine.py`) -/

/-- Model of `ConversationTurn` dataclass. -/
structure ConversationTurn where
  timestamp : ℚ
  userInput : String
  parsedIntent : ParsedIntent
  response : String
  executionTime : ℚ
  success : Bool
deriving DecidableEq

/-- The `user_preferences` dict, split by its three disjoint key
namespaces (`intent_*` counters, the nested `preferred_targets` dict,
`pref_*` detail counters); each association list preserves the Python
dict's insertion order. -/
structure Prefs where
  intentCounts : List (String × Nat)
  preferredTargets : List (String × Nat)
  detailCounts : List (String × Nat)
deriving DecidableEq

/-- Model of `prefs[k] = prefs.get(k, 0) + 1` on an insertion-ordered dict:
update in place, or append a fresh key. -/
def bump (k : String) (m : List (String × Nat)) : List (String × Nat) :=
  if m.any (fun p => p.1 = k) then
    m.map (fun p => if p.1 = k then (p.1, p.2 + 1) else p)
  else m ++ [(k, 1)]

/-- Model of `ConversationContext` dataclass. -/
structure ConversationContext where
  sessionId : String
  startedAt : ℚ
  currentTask : Option String
  currentTarget : Option String
  userPreferences : Prefs
  recentActions : List String
deriving DecidableEq

/-- Model of `ConversationEngine` state. -/
structure ConversationEngine where
  maxContextTurns : Nat
  currentContext : Option ConversationContext
  conversationHistory : List ConversationTurn
  sessionStart : ℚ

/-- Python's `xs[-n:]` slice (note `xs[-0:]` is the whole list). -/
def pySliceLast (n : Nat) (xs : List α) : List α :=
  if n = 0 then xs else xs.drop (xs.length - n)

/-- Model of `start_conversation`. -/
def startConversation (e : ConversationEngine) (sessionId : String) (now : ℚ) :
    ConversationEngine :=
  { e with
    currentContext := some
      { sessionId := sessionId, startedAt := now, currentTask := none,
        currentTarget := none, userPreferences := ⟨[], [], []⟩, recentActions := [] }
    conversationHistory := [] }

/-- Model of `_learn_preferences`. -/
def learnPreferences (prefs : Prefs) (pi : ParsedIntent) : Prefs :=
  let prefs := { prefs with intentCounts := bump ("intent_" ++ pi.intent.value) prefs.intentCounts }
  let prefs :=
    match truthyStr pi.target with
    | some t => { prefs with preferredTargets := bump t prefs.preferredTargets }
    | none => prefs
  pi.actionDetails.foldl
    (fun ps kv => { ps with detailCounts := bump ("pref_" ++ kv.1 ++ "_" ++ kv.2) ps.detailCounts })
    prefs

/-- Model of `_update_context`. -/
def updateContext (e : ConversationEngine) (turn : ConversationTurn) : ConversationEngine :=
  match e.currentContext with
  | none => e
  | some ctx =>
      let pi := turn.parsedIntent
      let ctx :=
        if pi.intent = IntentType.analyze ∨ pi.intent = IntentType.create ∨
            pi.intent = IntentType.optimize then
          { ctx with
            currentTask := some pi.intent.value
            currentTarget :=
              match truthyStr pi.target with
              | some t => some t
              | none => ctx.currentTarget }
        else ctx
      let actionDesc := pi.intent.value ++ ":" ++ orDefault pi.target "general"
      let ra := ctx.recentActions ++ [actionDesc]
      let ra := if ra.length > 5 then pySliceLast 5 ra else ra
      let ctx := { ctx with recentActions := ra }
      let ctx := { ctx with userPreferences := learnPreferences ctx.userPreferences pi }
      { e with currentContext := some ctx }

/-- Model of `add_turn`: append the turn, evict beyond the window, update the
context. -/
def addTurn (e : ConversationEngine) (now : ℚ) (userInput : String) (pi : ParsedIntent)
    (response : String) (executionTime : ℚ) (success : Bool) : ConversationEngine :=
  let turn : ConversationTurn :=
    { timestamp := now, userInput := userInput, parsedIntent := pi,
      response := response, executionTime := executionTime, success := success }
  let hist := e.conversationHistory ++ [turn]
  let hist := if hist.length > e.maxContextTurns then pySliceLast e.maxContextTurns hist else hist
  updateContext { e with conversationHistory := hist } turn

/-- Python `max(items, key=value)` over an insertion-ordered dict: the
first maximal entry wins (later entries replace only when strictly
greater is false — `max` keeps the first). -/
def firstMaxBy (f : α → Nat) : List α → Option α
  | [] => none
  | x :: xs => some (xs.foldl (fun b y => if f y > f b then y else b) x)

/-- Result shape of `_get_user_patterns`. -/
structure UserPatterns where
  mostCommonIntent : Option String
  mostCommonTarget : Option String
  totalInteractions : Nat
deriving DecidableEq

/-- Model of `_get_user_patterns` for a live context. -/
def userPatternsOf (prefs : Prefs) (histLen : Nat) : UserPatterns where
  mostCommonIntent := (firstMaxBy Prod.snd prefs.intentCounts).map (fun p => p.1.drop 7)
  mostCommonTarget := (firstMaxBy Prod.snd prefs.preferredTargets).map Prod.fst
  totalInteractions := histLen

/-- One summarized turn of `recent_conversation`. -/
structure RecentTurn where
  user : String
  intent : String
  success : Bool
deriving DecidableEq

/-- Model of `_get_suggested_continuations`. -/
def suggestedContinuationsOf (e : ConversationEngine) : List String :=
  match e.currentContext, e.conversationHistory.getLast? with
  | some _, some lastTurn =>
      let suggestions :=
        match lastTurn.parsedIntent.intent with
        | IntentType.analyze =>
            [ "¿Quieres que optimice los problemas encontrados?"
            , "¿Te interesa ver métricas específicas?"
            , "¿Debo crear un reporte detallado?" ]
        | IntentType.create =>
            [ "¿Quieres que analice lo que creé?"
            , "¿Debo generar tests para esto?"
            , "¿Te ayudo a integrarlo con el proyecto?" ]
        | IntentType.optimize =>
            [ "¿Quieres que analice el resultado?"
            , "¿Debo hacer más optimizaciones?"
            , "¿Te interesa ver las métricas de mejora?" ]
        | _ => []
      suggestions.take 2
  | _, _ => []

/-- Result shape of `get_context_for_llm` for a live context. -/
structure LlmContext where
  sessionDurationMinutes : ℚ
  currentTask : Option String
  currentTarget : Option String
  recentActions : List String
  recentConversation : List RecentTurn
  userPatterns : UserPatterns
  suggestedContinuations : List String
deriving DecidableEq

/-- Model of `get_context_for_llm` body for a live context (reads the clock). -/
def llmContextOf (ctx : ConversationContext) (e : ConversationEngine) (now : ℚ) : LlmContext where
  sessionDurationMinutes := (now - ctx.startedAt) / 60
  currentTask := ctx.currentTask
  currentTarget := ctx.currentTarget
  recentActions := pySliceLast 3 ctx.recentActions
  recentConversation :=
    (pySliceLast 3 e.conversationHistory).map
      (fun t => { user := t.userInput, intent := t.parsedIntent.intent.value, success := t.success })
  userPatterns := userPatternsOf ctx.userPreferences e.conversationHistory.length
  suggestedContinuations := suggestedContinuationsOf e

/-- Model of `get_context_for_llm` (`{}` of the no-context path is `none`). -/
def getContextForLlm (e : ConversationEngine) (now : ℚ) : Option LlmContext :=
  e.currentContext.map (fun ctx => llmContextOf ctx e now)

/-- Result shape of `get_session_summary` for a live context. -/
structure SessionSummary where
  sessionId : String
  durationMinutes : ℚ
  totalTurns : Nat
  successfulTurns : Nat
  failedTurns : Nat
  successRate : ℚ
  avgExecutionTime : ℚ
  currentTask : Option String
  userPatterns : UserPatterns
deriving DecidableEq

/-- Model of `get_session_summary` body for a live context. -/
def sessionSummaryOf (ctx : ConversationContext) (e : ConversationEngine) (now : ℚ) :
    SessionSummary :=
  let hist := e.conversationHistory
  let successful := hist.countP (fun t => t.success)
  let failed := hist.countP (fun t => !t.success)
  { sessionId := ctx.sessionId
    durationMinutes := (now - ctx.startedAt) / 60
    totalTurns := hist.length
    successfulTurns := successful
    failedTurns := failed
    successRate := if hist.length ≠ 0 then (successful : ℚ) / (hist.length : ℚ) else 0
    avgExecutionTime :=
      if hist.length ≠ 0 then (hist.map (fun t => t.executionTime)).sum / (hist.length : ℚ) else 0
    currentTask := ctx.currentTask
    userPatterns := userPatternsOf ctx.userPreferences hist.length }

/-- Model of `get_session_summary`. -/
def getSessionSummary (e : ConversationEngine) (now : ℚ) : Option SessionSummary :=
  e.currentContext.map (fun ctx => sessionSummaryOf ctx e now)

/-! ### Persistence (`save_context` / `load_context`)

`json.dump(..., default=str)` serializes every field natively except the
`IntentType` enum member, which is rendered by `str` as
`"IntentType.<NAME>"`; `load_context` strips that prefix, maps enum
names back to values, and rebuilds the state.  File input/output is
modelled as the serialized value itself; of the caught load failures
(missing file, bad JSON, missing key) none can arise from a value
produced by `save_context`, and an invalid intent value (which Python
would not catch) makes the modelled load return `none`. -/

/-- Model of `str(IntentType.X)` — the enum member's `NAME`. -/
def enumName : IntentType → String
  | .analyze => "ANALYZE"
  | .create => "CREATE"
  | .modify => "MODIFY"
  | .find => "FIND"
  | .explain => "EXPLAIN"
  | .optimize => "OPTIMIZE"
  | .test => "TEST"
  | .status => "STATUS"
  | .help => "HELP"
  | .unknown => "UNKNOWN"

/-- The `intent_name_to_value` mapping of `load_context`. -/
def nameToValue (s : String) : Option String :=
  List.lookup s
    [ ("ANALYZE", "analyze"), ("CREATE", "create"), ("MODIFY", "modify")
    , ("FIND", "find"), ("EXPLAIN", "explain"), ("OPTIMIZE", "optimize")
    , ("TEST", "test"), ("STATUS", "status"), ("HELP", "help")
    , ("UNKNOWN", "unknown") ]

/-- Model of `IntentType(value)` — the enum constructor, `none` on a bad value. -/
def valueToIntent (s : String) : Option IntentType :=
  List.lookup s
    [ ("analyze", IntentType.analyze), ("create", IntentType.create)
    , ("modify", IntentType.modify), ("find", IntentType.find)
    , ("explain", IntentType.explain), ("optimize", IntentType.optimize)
    , ("test", IntentType.test), ("status", IntentType.status)
    , ("help", IntentType.help), ("unknown", IntentType.unknown) ]

/-- Serialized `ParsedIntent` (the enum member is a string). -/
structure SavedIntent where
  intent : String
  confidence : ℚ
  target : Option String
  actionDetails : List (String × String)
  originalText : String
deriving DecidableEq

/-- Serialized `ConversationTurn`. -/
structure SavedTurn where
  timestamp : ℚ
  userInput : String
  parsedIntent : SavedIntent
  response : String
  executionTime : ℚ
  success : Bool
deriving DecidableEq

/-- The complete value written by `save_context`. -/
structure SavedData where
  context : ConversationContext
  conversationHistory : List SavedTurn
  sessionStart : ℚ
deriving DecidableEq

/-- Serialize one turn (`asdict` + `default=str` on the enum). -/
def saveTurn (t : ConversationTurn) : SavedTurn where
  timestamp := t.timestamp
  userInput := t.userInput
  parsedIntent :=
    { intent := "IntentType." ++ enumName t.parsedIntent.intent
      confidence := t.parsedIntent.confidence
      target := t.parsedIntent.target
      actionDetails := t.parsedIntent.actionDetails
      originalText := t.parsedIntent.originalText }
  response := t.response
  executionTime := t.executionTime
  success := t.success

/-- Model of `save_context` (no-op returning `none` without a live context). -/
def saveContext (e : ConversationEngine) : Option SavedData :=
  e.currentContext.map (fun ctx =>
    { context := ctx
      conversationHistory := e.conversationHistory.map saveTurn
      sessionStart := e.sessionStart })

/-- Python `str.startswith` (character-based). -/
def pyStartsWith (s pre : String) : Bool := pre.data.isPrefixOf s.data

/-- Rebuild one turn in `load_context`: enum-name normalization, then
`IntentType(value)`.  (The source's `replace("IntentType.", "")` runs
under the `startswith` guard; on every value `str` produces for an
enum member it coincides with dropping the 11-character prefix.) -/
def loadTurn (t : SavedTurn) : Option ConversationTurn :=
  let intentValue := t.parsedIntent.intent
  let intentValue :=
    if pyStartsWith intentValue "IntentType." then (⟨intentValue.data.drop 11⟩ : String)
    else intentValue
  let intentValue :=
    match nameToValue intentValue with
    | some v => v
    | none => intentValue
  (valueToIntent intentValue).map (fun it =>
    { timestamp := t.timestamp
      userInput := t.userInput
      parsedIntent :=
        { intent := it
          confidence := t.parsedIntent.confidence
          target := t.parsedIntent.target
          actionDetails := t.parsedIntent.actionDetails
          originalText := t.parsedIntent.originalText }
      response := t.response
      executionTime := t.executionTime
      success := t.success })

/-- Model of `load_context` success path on an in-memory saved value. -/
def loadContext (d : SavedData) (e : ConversationEngine) : Option ConversationEngine :=
  (d.conversationHistory.mapM loadTurn).map (fun hist =>
    { e with
      currentContext := some d.context
      sessionStart := d.sessionStart
      conversationHistory := hist })

/-! ### Intent router (`src/core/intent_router.py`) -/

/-- Routing result dict of `route_intent`. -/
structure RouteResult where
  response : String
  handledBy : String
  executionTime : ℚ
  success : Bool
deriving DecidableEq

/-- The collaborators the router talks to: registered workspace-tool
names, the tool operations (an `Except` result models a raised
exception), the `hasattr` capability checks, and the generative
service.  These are external to the pipeline (spec §6); the router's
own logic is transcribed below. -/
structure RouterEnv where
  tools : List String
  analyzeProject : String → Except String String
  hasAnalyzeProject : Bool
  findFiles : String → Except String String
  hasFindFiles : Bool
  createFile : String → String → Except String String
  hasCreateFile : Bool
  llmConfigured : Bool
  chat : List (String × String) → String → Except String (Option String)

/-- Model of `_setup_direct_handlers`: the intents with direct handlers. -/
def directHandlerIntents : List IntentType := [IntentType.status, IntentType.help]

/-- Model of `_can_handle_directly`. -/
def canHandleDirectly (pi : ParsedIntent) : Bool :=
  directHandlerIntents.contains pi.intent && decide ((0.7 : ℚ) ≤ pi.confidence)

/-- The `tool_intents` table of `_can_handle_with_tools`. -/
def toolIntents : IntentType → Option String
  | IntentType.analyze => some "code_analyzer"
  | IntentType.find => some "workspace_explorer"
  | IntentType.create => some "file_manager"
  | _ => none

/-- Model of `_can_handle_with_tools`. -/
def canHandleWithTools (env : RouterEnv) (pi : ParsedIntent) : Bool :=
  if pi.confidence < 0.6 then false
  else
    match toolIntents pi.intent with
    | none => false
    | some t => env.tools.contains t

/-- Render an optional string as Python's f-string does (`None` prints
as `"None"`; both keys are always present in the context dict, so the
`.get` defaults of the source are dead). -/
def optStr : Option String → String
  | some s => s
  | none => "None"

/-- Model of `_handle_status`.  Numeric f-string formatting (`:.1f`, `:.2f`,
`:.1%`) is idealized as the canonical rational rendering; no property
below depends on this text. -/
def handleStatus (e : ConversationEngine) (now : ℚ) : String :=
  match e.currentContext with
  | none => "📊 **Estado**: No hay conversación activa"
  | some ctx =>
      let summary := sessionSummaryOf ctx e now
      let context := llmContextOf ctx e now
      let response :=
        "📊 **Estado de la Conversación**\n\n⏱️ **Duración**: " ++
          toString summary.durationMinutes ++ " minutos\n🔢 **Turnos**: " ++
          toString summary.totalTurns ++ " (" ++ toString summary.successfulTurns ++
          " exitosos)\n⚡ **Tiempo promedio**: " ++ toString summary.avgExecutionTime ++
          "s\n✅ **Tasa de éxito**: " ++ toString summary.successRate ++
          "\n\n🎯 **Contexto Actual**:\n• **Tarea**: " ++ optStr context.currentTask ++
          "\n• **Objetivo**: " ++ optStr context.currentTarget ++
          "\n• **Acciones recientes**: " ++ String.intercalate ", " context.recentActions
      let suggestions := context.suggestedContinuations
      if suggestions.isEmpty then response
      else
        response ++ "\n\n💡 **Sugerencias**:\n" ++
          String.intercalate "\n" (suggestions.map (fun s => "• " ++ s))

/-- Model of `_handle_help`. -/
def handleHelp (e : ConversationEngine) (now : ℚ) : String :=
  let baseHelp :=
    "🤖 **LocalClaude - Ayuda Conversacional**\n\nPuedes hablar conmigo naturalmente:\n\n" ++
    "🔍 **Análisis**:\n• \"Analiza este proyecto\"\n• \"Qué problemas tiene el código\"\n• \"Revisa el performance\"\n\n" ++
    "🏗️ **Creación**:\n• \"Crea una nueva función\"\n• \"Genera una API REST\"\n• \"Hacer un proyecto Python\"\n\n" ++
    "🔧 **Optimización**:\n• \"Optimiza este código\"\n• \"Mejora el performance\"\n• \"Acelera la función X\"\n\n" ++
    "📊 **Estado**:\n• \"Estado del proyecto\"\n• \"Métricas del sistema\"\n• \"Progreso actual\"\n\n" ++
    "🔎 **Búsqueda**:\n• \"Busca la función main\"\n• \"Dónde está definida la clase X\"\n\n" ++
    "💡 **Ejemplo**: En lugar de `/analyze --metrics performance`, simplemente di \"Analiza el performance de este proyecto\"\n"
  match e.currentContext with
  | none => baseHelp
  | some ctx =>
      let context := llmContextOf ctx e now
      match truthyStr context.currentTask with
      | none => baseHelp
      | some task =>
          let baseHelp := baseHelp ++ "\n🎯 **Contexto actual**: Estás trabajando en " ++ task
          match context.suggestedContinuations with
          | [] => baseHelp
          | s :: _ => baseHelp ++ "\n💡 **Puedes continuar con**: " ++ s

/-- Model of `_handle_directly`: dispatch through the direct-handler table. -/
def handleDirectly (e : ConversationEngine) (now : ℚ) (pi : ParsedIntent) : String :=
  match pi.intent with
  | IntentType.status => handleStatus e now
  | IntentType.help => handleHelp e now
  | _ => "Intent no soportado para manejo directo"

/-- Model of `_handle_with_tools` (collaborator exceptions surface as the
`Error usando herramientas` message of the inner `except`). -/
def handleWithTools (env : RouterEnv) (pi : ParsedIntent) : String :=
  match pi.intent with
  | IntentType.analyze =>
      if env.tools.contains "code_analyzer" && env.hasAnalyzeProject then
        match env.analyzeProject (orDefault pi.target ".") with
        | .ok result => "📊 **Análisis completado**:\n" ++ result
        | .error msg => "Error usando herramientas: " ++ msg
      else "Herramienta no disponible para este intent"
  | IntentType.find =>
      if env.tools.contains "workspace_explorer" && env.hasFindFiles then
        match env.findFiles (orDefault pi.target "*") with
        | .ok result => "🔍 **Búsqueda completada**:\n" ++ result
        | .error msg => "Error usando herramientas: " ++ msg
      else "Herramienta no disponible para este intent"
  | IntentType.create =>
      if env.tools.contains "file_manager" && env.hasCreateFile then
        let target := orDefault pi.target "new_file.py"
        let fileType := (pi.actionDetails.lookup "type").getD "python"
        match env.createFile target fileType with
        | .ok result => "📁 **Archivo creado**:\n" ++ result
        | .error msg => "Error usando herramientas: " ++ msg
      else "Herramienta no disponible para este intent"
  | _ => "Herramienta no disponible para este intent"

/-- The `intent_prompts` table of `_build_optimized_prompt`. -/
def intentPrompts : IntentType → Option String
  | IntentType.analyze =>
      some "El usuario quiere que analices código/proyecto. Enfócate en findings específicos y sugerencias."
  | IntentType.create =>
      some "El usuario quiere crear algo. Pregunta detalles si necesitas y genera contenido útil."
  | IntentType.optimize =>
      some "El usuario quiere optimizar algo. Identifica bottlenecks y sugiere mejoras específicas."
  | IntentType.explain =>
      some "El usuario quiere explicación. Sé claro, didáctico y da ejemplos."
  | IntentType.find =>
      some "El usuario busca algo. Ayúdale a localizar lo que necesita."
  | _ => none

/-- Model of `_build_optimized_prompt`. -/
def buildOptimizedPrompt (pi : ParsedIntent) (context : Option LlmContext) : String :=
  let parts : List String :=
    ["Eres LocalClaude, un asistente conversacional para desarrollo. Responde de forma natural y útil."]
  let parts := parts ++
    (match intentPrompts pi.intent with
     | some p => [p]
     | none => [])
  let parts := parts ++
    (match truthyStr (context.bind (fun c => c.currentTask)) with
     | some task => ["Contexto: El usuario está trabajando en " ++ task]
     | none => [])
  let parts := parts ++
    (match context with
     | some c =>
         if c.recentActions.isEmpty then []
         else ["Acciones recientes: " ++ String.intercalate ", " (pySliceLast 2 c.recentActions)]
     | none => [])
  let parts := parts ++
    (match truthyStr pi.target with
     | some t => ["Target específico: " ++ t]
     | none => [])
  let parts := parts ++
    ["Responde de forma conversacional, no como comando. Si necesitas acción específica, sé proactivo."]
  String.intercalate "\n\n" parts

/-- Model of `_get_task_type`. -/
def getTaskType (pi : ParsedIntent) : String :=
  if pi.intent = IntentType.analyze ∨ pi.intent = IntentType.optimize then "complex"
  else if pi.intent = IntentType.create ∨ pi.intent = IntentType.explain then "coding"
  else "general"

/-- The message list handed to `llm_interface.chat`. -/
def llmMessages (e : ConversationEngine) (now : ℚ) (userInput : String) (pi : ParsedIntent) :
    List (String × String) :=
  [("system", buildOptimizedPrompt pi (getContextForLlm e now)), ("user", userInput)]

/-- Model of `_handle_with_llm`: an unconfigured service and a raised chat
exception both return an error *string*; only a `None` chat result
propagates as `none`. -/
def handleWithLlm (env : RouterEnv) (e : ConversationEngine) (now : ℚ) (userInput : String)
    (pi : ParsedIntent) : Option String :=
  if !env.llmConfigured then some "LLM no configurado"
  else
    match env.chat (llmMessages e now userInput pi) (getTaskType pi) with
    | .error msg => some ("Error en LLM: " ++ msg)
    | .ok r => r

/-- Model of `route_intent`: the three-tier routing state machine.  All modelled
handler operations are total (collaborator exceptions are already
converted to strings inside the inner handlers, as in the source), so
the outer `except` branch producing `handled_by="error"` is not
reachable in the model. -/
def routeIntent (env : RouterEnv) (e : ConversationEngine) (now elapsed : ℚ)
    (userInput : String) (pi : ParsedIntent) : RouteResult × ConversationEngine :=
  if canHandleDirectly pi then
    let response := handleDirectly e now pi
    ( { response := response, handledBy := "direct", executionTime := elapsed, success := true }
    , addTurn e now userInput pi response elapsed true )
  else if canHandleWithTools env pi then
    let response := handleWithTools env pi
    ( { response := response, handledBy := "tools", executionTime := elapsed, success := true }
    , addTurn e now userInput pi response elapsed true )
  else
    let response := handleWithLlm env e now userInput pi
    let success := response.isSome
    ( { response := orDefault response "Lo siento, hubo un error procesando tu solicitud."
      , handledBy := "llm", executionTime := elapsed, success := success }
    , addTurn e now userInput pi (orDefault response "Error en LLM") elapsed success )

/-! ### Confidence-level computation (`src/core/response_generator.py`) -/

/-- Model of `_calculate_confidence_level`: the time bonus is added only when
`execution_time > 0`. -/
def calculateConfidenceLevel (intent : ParsedIntent) (success : Bool) (executionTime : ℚ) :
    String :=
  let parseConfidence := intent.confidence
  let score : ℚ := 0
  let score := score + parseConfidence * 0.4
  let score := if success then score + 0.4 else score
  let score :=
    if executionTime > 0 then score + max 0 (1 - executionTime / 10) * 0.2 else score
  if score ≥ 0.8 then "high"
  else if score ≥ 0.6 then "medium"
  else "low"

/-! ### Spec-side definitions

The following definitions follow the *specification's wording* (not the
source) and are compared with the transcribed code above in the
refinement theorems. -/

/-- Spec wording of the per-group confidence formula: "if any regex
alternative matches, add `base_confidence × 0.8`; separately, add
`0.5 × (matched_keyword_count / total_keywords_in_group)`; sum the two
contributions and clamp to 1.0". -/
def specGroupScore (text : String) (g : PatternGroup) : ℚ :=
  min
    ((if g.patterns.any (fun p => reSearch p text) then g.confidence * 0.8 else 0) +
      0.5 * ((g.keywords.countP (fun k => containsStr k.toLower text) : ℚ) /
        (g.keywords.length : ℚ)))
    1

/-- The registered pattern groups, in registration order. -/
def allGroups : List PatternGroup := (intentPatterns.map Prod.snd).flatten

/-- The registered `(intent, group)` pairs, flattened in registration
order. -/
def flatGroups : List (IntentType × PatternGroup) :=
  (intentPatterns.map (fun ip => ip.2.map (fun g => (ip.1, g)))).flatten

/-- Score of one registered pair on a (lower-cased, trimmed) text. -/
def groupScore (text : String) (p : IntentType × PatternGroup) : ℚ :=
  calculateConfidence text p.2

/-- Spec wording: "the highest combined score across all groups". -/
def maxScore (text : String) : ℚ :=
  (flatGroups.map (groupScore text)).foldl max 0

/-- Spec wording of the winner: the first-registered intent whose group
attains the highest combined score. -/
def specWinner (text : String) : Option IntentType :=
  (flatGroups.find? (fun p => decide (groupScore text p = maxScore text))).map Prod.fst

/-- Spec wording of the confidence-level score: "40% the classifier's
confidence, 40% a binary success bonus, 20% an inverse time-penalty
(`max(0, 1 − execution_time/10)`)". -/
def specConfidenceScore (c : ℚ) (success : Bool) (executionTime : ℚ) : ℚ :=
  c * 0.4 + (if success then (1 : ℚ) else 0) * 0.4 + max 0 (1 - executionTime / 10) * 0.2

/-- Spec wording of the thresholds: `≥0.8 high, ≥0.6 medium, else low`. -/
def specConfidenceLevel (c : ℚ) (success : Bool) (executionTime : ℚ) : String :=
  if specConfidenceScore c success executionTime ≥ 0.8 then "high"
  else if specConfidenceScore c success executionTime ≥ 0.6 then "medium"
  else "low"

/-- The amended confidence-level score: the inverse-time term counts
only when `execution_time > 0` (at `0` the code adds nothing). -/
def amendedConfidenceScore (c : ℚ) (success : Bool) (executionTime : ℚ) : ℚ :=
  c * 0.4 + (if success then (1 : ℚ) else 0) * 0.4 +
    (if executionTime > 0 then max 0 (1 - executionTime / 10) * 0.2 else 0)

/-- Thresholds applied to the amended score. -/
def amendedConfidenceLevel (c : ℚ) (success : Bool) (executionTime : ℚ) : String :=
  if amendedConfidenceScore c success executionTime ≥ 0.8 then "high"
  else if amendedConfidenceScore c success executionTime ≥ 0.6 then "medium"
  else "low"

/-- A context snapshot with its clock-derived field cleared, for
comparing two snapshots taken at different instants. -/
def stripDuration (c : LlmContext) : LlmContext :=
  { c with sessionDurationMinutes := 0 }

/-! ### Helper lemmas -/

lemma le_foldl_max : ∀ (l : List ℚ) (b : ℚ), b ≤ l.foldl max b
  | [], _ => le_refl _
  | x :: l, b => le_trans (le_max_left b x) (le_foldl_max l (max b x))

lemma foldl_max_le (c : ℚ) : ∀ (l : List ℚ) (b : ℚ), b ≤ c → (∀ x ∈ l, x ≤ c) →
    l.foldl max b ≤ c
  | [], _, hb, _ => hb
  | x :: l, b, hb, hl => by
      refine foldl_max_le c l (max b x) (max_le hb (hl x ?_)) (fun y hy => hl y ?_)
      · exact List.mem_cons_self x l
      · exact List.mem_cons_of_mem x hy

lemma foldl_max_congr_base {b b' : ℚ} (l : List ℚ) (h : b = b') :
    l.foldl max b = l.foldl max b' := by rw [h]

/-- Dropping a prefix leaves `getLast?` unchanged while the suffix stays
nonempty. -/
lemma getLast?_drop (l : List α) (n : Nat) (h : n < l.length) :
    (l.drop n).getLast? = l.getLast? := by
  induction l generalizing n with
  | nil => simp at h
  | cons x t ih =>
      cases n with
      | zero => rfl
      | succ m =>
          simp only [List.drop_succ_cons]
          rw [ih m (by simpa using h)]
          cases ht : t with
          | nil =>
              rw [ht] at h
              simp only [List.length_cons, List.length_nil] at h
              omega
          | cons y u => simp [List.getLast?_cons_cons]

lemma bestStep_eq (text : String) (b : IntentType × ℚ) (p : IntentType × PatternGroup) :
    bestStep text b p = if groupScore text p > b.2 then (p.1, groupScore text p) else b := rfl

/-- Behaviour of the best-match fold of `parse`: its confidence is the
running maximum; the state is unchanged when nothing beats it; and when
something does, the fold lands on the first element attaining the
maximum. -/
lemma bestFold (text : String) :
    ∀ (l : List (IntentType × PatternGroup)) (b : IntentType × ℚ) (M : ℚ),
      M = (l.map (groupScore text)).foldl max b.2 →
      (l.foldl (bestStep text) b).2 = M ∧
      (M = b.2 → l.foldl (bestStep text) b = b) ∧
      (b.2 < M →
        ∃ p, l.find? (fun q => decide (groupScore text q = M)) = some p ∧
          l.foldl (bestStep text) b = (p.1, M) ∧ groupScore text p = M) := by
  intro l
  induction l with
  | nil =>
      intro b M hM
      simp only [List.map_nil, List.foldl_nil] at hM
      exact ⟨hM.symm, fun _ => rfl, fun hlt => absurd (hM ▸ hlt) (lt_irrefl _)⟩
  | cons p l ih =>
      intro b M hM
      simp only [List.map_cons, List.foldl_cons] at hM ⊢
      by_cases hc : groupScore text p > b.2
      · have hb' : bestStep text b p = (p.1, groupScore text p) := by
          rw [bestStep_eq, if_pos hc]
        have hmax : max b.2 (groupScore text p) = groupScore text p :=
          max_eq_right (le_of_lt hc)
        rw [hmax] at hM
        obtain ⟨ih1, ih2, ih3⟩ := ih (p.1, groupScore text p) M hM
        have hcM : groupScore text p ≤ M := by
          rw [hM]; exact le_foldl_max _ _
        refine ⟨?_, ?_, ?_⟩
        · rw [hb']; exact ih1
        · intro hMb
          exact absurd (lt_of_lt_of_le hc (hMb ▸ hcM)) (lt_irrefl _)
        · intro _
          by_cases hpm : groupScore text p = M
          · refine ⟨p, ?_, ?_, hpm⟩
            · exact List.find?_cons_of_pos _ (by simpa using hpm)
            · rw [hb', ih2 (by simpa using hpm.symm), hpm]
          · have hlt' : groupScore text p < M := lt_of_le_of_ne hcM hpm
            obtain ⟨q, hq1, hq2, hq3⟩ := ih3 (by simpa using hlt')
            refine ⟨q, ?_, ?_, hq3⟩
            · rw [List.find?_cons_of_neg _ (by simpa using hpm)]
              exact hq1
            · rw [hb']; exact hq2
      · have hb' : bestStep text b p = b := by rw [bestStep_eq, if_neg hc]
        have hmax : max b.2 (groupScore text p) = b.2 := max_eq_left (not_lt.mp hc)
        rw [hmax] at hM
        obtain ⟨ih1, ih2, ih3⟩ := ih b M hM
        refine ⟨?_, ?_, ?_⟩
        · rw [hb']; exact ih1
        · intro hMb; rw [hb']; exact ih2 hMb
        · intro hlt
          have hpm : ¬ groupScore text p = M := by
            intro hEq
            exact absurd (lt_of_lt_of_le hlt (le_of_eq hEq.symm)) (not_lt.mpr (not_lt.mp hc))
          obtain ⟨q, hq1, hq2, hq3⟩ := ih3 hlt
          refine ⟨q, ?_, ?_, hq3⟩
          · rw [List.find?_cons_of_neg _ (by simpa using hpm)]
            exact hq1
          · rw [hb']; exact hq2

lemma parseCore_eq_flat (text : String) :
    parseCore text = flatGroups.foldl (bestStep text) (IntentType.unknown, 0) := rfl

lemma flatGroups_fst :
    flatGroups.map Prod.fst =
      [ IntentType.analyze, IntentType.create, IntentType.find, IntentType.optimize
      , IntentType.explain, IntentType.status, IntentType.help ] := rfl

lemma parse_of_nonempty (t : String) (h : ¬(t = "" ∨ pyStrip t = "")) :
    (parse t).intent = (parseCore (pyStrip (pyLower t))).1 ∧
    (parse t).confidence = (parseCore (pyStrip (pyLower t))).2 := by
  rw [parse, if_neg h]
  exact ⟨rfl, rfl⟩

lemma flatGroups_fst_ne_unknown : ∀ p ∈ flatGroups, p.1 ≠ IntentType.unknown := by
  intro p hp hun
  have hm : p.1 ∈ flatGroups.map Prod.fst := List.mem_map_of_mem Prod.fst hp
  rw [flatGroups_fst, hun] at hm
  simp at hm

lemma calculateConfidence_le_one (text : String) (g : PatternGroup) :
    calculateConfidence text g ≤ 1 :=
  min_le_right _ _

lemma calculateConfidence_eq_spec (text : String) (g : PatternGroup) :
    calculateConfidence text g = specGroupScore text g := by
  unfold calculateConfidence specGroupScore
  dsimp only
  congr 1
  have hpart1 :
      (if g.patterns.countP (fun p => reSearch p text) > 0 then g.confidence * 0.8 else 0) =
      (if g.patterns.any (fun p => reSearch p text) then g.confidence * 0.8 else 0) := by
    by_cases hany : g.patterns.any (fun p => reSearch p text) = true
    · rw [if_pos hany, if_pos (List.countP_pos_iff.mpr (List.any_eq_true.mp hany))]
    · rw [if_neg hany]
      rw [if_neg]
      intro hpos
      exact hany (List.any_eq_true.mpr (List.countP_pos_iff.mp hpos))
  have hpart2 :
      (if g.keywords.countP (fun k => containsStr k.toLower text) > 0 then
          0.5 * ((g.keywords.countP (fun k => containsStr k.toLower text) : ℚ) /
            (g.keywords.length : ℚ))
        else 0) =
      0.5 * ((g.keywords.countP (fun k => containsStr k.toLower text) : ℚ) /
        (g.keywords.length : ℚ)) := by
    by_cases hk : g.keywords.countP (fun k => containsStr k.toLower text) > 0
    · rw [if_pos hk]
    · rw [if_neg hk]
      have hk0 : g.keywords.countP (fun k => containsStr k.toLower text) = 0 := by omega
      rw [hk0]
      norm_num
  rw [hpart1, hpart2]

/-- Claim C10. For every nonempty, non-whitespace input, `parse` returns
intent `Unknown` if and only if the returned confidence is exactly
`0.0`; a positive confidence always comes with a non-`Unknown` intent. -/
theorem c10_unknown_iff_zero_confidence (t : String) (h : ¬(t = "" ∨ pyStrip t = "")) :
    (parse t).intent = IntentType.unknown ↔ (parse t).confidence = 0 := by
  obtain ⟨hi, hc⟩ := parse_of_nonempty t h
  obtain ⟨h1, h2, h3⟩ :=
    bestFold (pyStrip (pyLower t)) flatGroups (IntentType.unknown, 0)
      (maxScore (pyStrip (pyLower t))) rfl
  rw [parseCore_eq_flat] at hi hc
  rcases (le_foldl_max ((flatGroups.map (groupScore (pyStrip (pyLower t))))) 0).lt_or_eq
    with hM | hM
  · obtain ⟨p, hp1, hp2, hp3⟩ := h3 hM
    rw [hp2] at hi hc
    constructor
    · intro hu
      exact absurd (hi.symm.trans hu)
        (flatGroups_fst_ne_unknown p (List.mem_of_find?_eq_some hp1))
    · intro h0
      exact absurd (hc.symm.trans h0) (ne_of_gt hM)
  · have hfold := h2 hM.symm
    rw [hfold] at hi hc
    exact ⟨fun _ => hc, fun _ => hi⟩

/-- Closed witness for C10 at the concrete input `"x"`. -/
theorem c10_witness :
    ¬(("x" : String) = "" ∨ pyStrip "x" = "") ∧
      ((parse "x").intent = IntentType.unknown ↔ (parse "x").confidence = 0) :=
  ⟨by with_unfolding_all decide, c10_unknown_iff_zero_confidence "x" (by with_unfolding_all decide)⟩

/-- Claim C5, counterexample. On input `"x"` every registered group scores
`0`, so the spec-described winner ("highest combined score, ties broken
by registration order") is the first-registered intent `Analyze`; but
`parse` returns `Unknown`, not `Analyze`. -/
theorem c5_counterexample :
    specWinner (pyStrip (pyLower "x")) = some IntentType.analyze ∧
    (parse "x").intent = IntentType.unknown ∧
    IntentType.unknown ≠ IntentType.analyze := by
  refine ⟨?_, ?_, ?_⟩
  · with_unfolding_all rfl
  · with_unfolding_all rfl
  · with_unfolding_all decide

/-- Claim C5, amended. For every nonempty, non-whitespace input: when the
highest combined score over the registered groups is positive, `parse`
returns the first-registered intent attaining that score, with that
score as its confidence; when every group scores `0` (a tie at the
highest score `0`), `parse` returns `Unknown` with confidence `0`
instead of the first-registered intent. -/
theorem c5_first_registered_wins (t : String) (h : ¬(t = "" ∨ pyStrip t = "")) :
    (0 < maxScore (pyStrip (pyLower t)) →
      specWinner (pyStrip (pyLower t)) = some (parse t).intent ∧
      (parse t).confidence = maxScore (pyStrip (pyLower t))) ∧
    (maxScore (pyStrip (pyLower t)) = 0 →
      (parse t).intent = IntentType.unknown ∧ (parse t).confidence = 0) := by
  obtain ⟨hi, hc⟩ := parse_of_nonempty t h
  obtain ⟨h1, h2, h3⟩ :=
    bestFold (pyStrip (pyLower t)) flatGroups (IntentType.unknown, 0)
      (maxScore (pyStrip (pyLower t))) rfl
  rw [parseCore_eq_flat] at hi hc
  constructor
  · intro hM
    obtain ⟨p, hp1, hp2, hp3⟩ := h3 hM
    rw [hp2] at hi hc
    constructor
    · rw [specWinner, hp1, hi]
      rfl
    · exact hc
  · intro hM
    have hfold := h2 hM
    rw [hfold] at hi hc
    exact ⟨hi, hc⟩

/-- Closed witness for C5's amended theorem at the concrete input `"x"`
(all-zero scores: `parse` yields `Unknown` at confidence `0`). -/
theorem c5_witness :
    (parse "x").intent = IntentType.unknown ∧ (parse "x").confidence = 0 :=
  (c5_first_registered_wins "x" (by with_unfolding_all decide)).2
    (by with_unfolding_all rfl)

/-- Claim C4. For every nonempty, non-whitespace input and every
registered pattern-group, the group's score on the lower-cased trimmed
text equals the spec formula `(base_confidence × 0.8 if any regex
alternative matches else 0) + 0.5 × (matched_keywords / total_keywords)`
clamped to `1.0`; and every `ParsedIntent` produced by `parse` has
confidence in `[0, 1]`. -/
theorem c4_confidence_formula :
    (∀ t : String, ¬(t = "" ∨ pyStrip t = "") → ∀ g ∈ allGroups,
      calculateConfidence (pyStrip (pyLower t)) g = specGroupScore (pyStrip (pyLower t)) g) ∧
    (∀ t : String, 0 ≤ (parse t).confidence ∧ (parse t).confidence ≤ 1) := by
  constructor
  · intro t _ g _
    exact calculateConfidence_eq_spec (pyStrip (pyLower t)) g
  · intro t
    by_cases h : t = "" ∨ pyStrip t = ""
    · rw [parse, if_pos h]
      norm_num
    · obtain ⟨_, hc⟩ := parse_of_nonempty t h
      rw [parseCore_eq_flat] at hc
      obtain ⟨h1, _, _⟩ :=
        bestFold (pyStrip (pyLower t)) flatGroups (IntentType.unknown, 0)
          (maxScore (pyStrip (pyLower t))) rfl
      rw [h1] at hc
      constructor
      · rw [hc]
        exact le_foldl_max _ 0
      · rw [hc]
        refine foldl_max_le 1 _ 0 (by norm_num) ?_
        intro x hx
        obtain ⟨p, _, hpx⟩ := List.mem_map.mp hx
        rw [← hpx]
        exact calculateConfidence_le_one _ _

/-- Closed witness for C4 at the input `"hola"` and the first registered
group. -/
theorem c4_witness :
    calculateConfidence (pyStrip (pyLower "hola")) analyzeGroup =
      specGroupScore (pyStrip (pyLower "hola")) analyzeGroup ∧
    0 ≤ (parse "hola").confidence ∧ (parse "hola").confidence ≤ 1 :=
  ⟨c4_confidence_formula.1 "hola" (by with_unfolding_all decide) analyzeGroup
      (List.mem_cons_self _ _),
    c4_confidence_formula.2 "hola"⟩

/-- A `ParsedIntent` with a given confidence (used for concrete
response-generator inputs). -/
def mkIntent (it : IntentType) (c : ℚ) : ParsedIntent :=
  { intent := it, confidence := c, target := none, actionDetails := [], originalText := "" }

/-- Claim C3, counterexample. At confidence `0.5`, `success = True` and
`execution_time = 0` the claim's formula scores
`0.4·0.5 + 0.4 + 0.2·max(0, 1 − 0/10) = 0.8`, hence `"high"`, but the
code adds no time term at `execution_time = 0` and scores `0.6`,
returning `"medium"`. -/
theorem c3_counterexample :
    calculateConfidenceLevel (mkIntent IntentType.unknown 0.5) true 0 = "medium" ∧
    specConfidenceLevel 0.5 true 0 = "high" ∧
    ("medium" : String) ≠ "high" := by
  refine ⟨?_, ?_, ?_⟩
  · with_unfolding_all rfl
  · with_unfolding_all rfl
  · with_unfolding_all decide

/-- Claim C3, amended. For every parsed intent, success flag and
`execution_time ≥ 0`, the generated confidence level classifies the
score `0.4·confidence + 0.4·(1 if success else 0) + T` with thresholds
`≥0.8 high / ≥0.6 medium / else low`, where the inverse-time term
`T = 0.2·max(0, 1 − execution_time/10)` is included only when
`execution_time > 0` (at exactly `0` the code adds nothing); for every
positive `execution_time` this coincides with the claim's formula. -/
theorem c3_confidence_level (pi : ParsedIntent) (success : Bool) (executionTime : ℚ)
    (_h0 : 0 ≤ executionTime) :
    calculateConfidenceLevel pi success executionTime =
      amendedConfidenceLevel pi.confidence success executionTime ∧
    (0 < executionTime →
      calculateConfidenceLevel pi success executionTime =
        specConfidenceLevel pi.confidence success executionTime) := by
  have hkey : ∀ (s : Bool) (t : ℚ),
      (if t > 0 then
          (if s = true then 0 + pi.confidence * 0.4 + 0.4 else 0 + pi.confidence * 0.4) +
            (0 ⊔ (1 - t / 10)) * 0.2
        else if s = true then 0 + pi.confidence * 0.4 + 0.4 else 0 + pi.confidence * 0.4) =
      amendedConfidenceScore pi.confidence s t := by
    intro s t
    unfold amendedConfidenceScore
    cases s <;> by_cases ht : t > 0 <;> simp [ht] <;> ring_nf
  constructor
  · unfold calculateConfidenceLevel amendedConfidenceLevel
    dsimp only
    rw [hkey]
  · intro ht
    unfold calculateConfidenceLevel specConfidenceLevel
    dsimp only
    rw [hkey]
    have hts : specConfidenceScore pi.confidence success executionTime =
        amendedConfidenceScore pi.confidence success executionTime := by
      unfold specConfidenceScore amendedConfidenceScore
      rw [if_pos ht]
    rw [hts]

/-- Closed witness for C3's amended theorem at confidence `1`,
`success = True`, `execution_time = 5`. -/
theorem c3_witness :
    calculateConfidenceLevel (mkIntent IntentType.unknown 1) true 5 =
      amendedConfidenceLevel 1 true 5 ∧
    calculateConfidenceLevel (mkIntent IntentType.unknown 1) true 5 =
      specConfidenceLevel 1 true 5 := by
  obtain ⟨h1, h2⟩ :=
    c3_confidence_level (mkIntent IntentType.unknown 1) true 5 (by norm_num)
  exact ⟨h1, h2 (by norm_num)⟩

/-! ### Router claims -/

lemma canHandleDirectly_iff (pi : ParsedIntent) :
    canHandleDirectly pi = true ↔
      (pi.intent = IntentType.status ∨ pi.intent = IntentType.help) ∧
        (0.7 : ℚ) ≤ pi.confidence := by
  unfold canHandleDirectly directHandlerIntents
  simp only [Bool.and_eq_true, List.elem_iff, List.mem_cons, List.mem_singleton,
    decide_eq_true_eq, List.not_mem_nil, or_false]

lemma canHandleWithTools_iff (env : RouterEnv) (pi : ParsedIntent) :
    canHandleWithTools env pi = true ↔
      (0.6 : ℚ) ≤ pi.confidence ∧
        ∃ t, toolIntents pi.intent = some t ∧ t ∈ env.tools := by
  unfold canHandleWithTools
  by_cases hlt : pi.confidence < 0.6
  · rw [if_pos hlt]
    constructor
    · intro hfalse
      exact Bool.noConfusion hfalse
    · intro hand
      exact absurd hand.1 (not_le.mpr hlt)
  · rw [if_neg hlt]
    have h6 : (0.6 : ℚ) ≤ pi.confidence := not_lt.mp hlt
    cases hti : toolIntents pi.intent with
    | none =>
        constructor
        · intro hfalse
          exact Bool.noConfusion hfalse
        · rintro ⟨-, t, hsome, -⟩
          exact Option.noConfusion hsome
    | some t0 =>
        simp only [List.elem_iff]
        constructor
        · intro hmem
          exact ⟨h6, t0, rfl, hmem⟩
        · rintro ⟨-, t, hsome, hmem⟩
          cases hsome
          exact hmem

/-- Claim C6. For every parsed intent, `route_intent` takes the direct
path (`handled_by = "direct"`) if and only if the intent is `Status` or
`Help` and the confidence is at least `0.7`. -/
theorem c6_direct_path_iff (env : RouterEnv) (e : ConversationEngine) (now elapsed : ℚ)
    (userInput : String) (pi : ParsedIntent) :
    (routeIntent env e now elapsed userInput pi).1.handledBy = "direct" ↔
      (pi.intent = IntentType.status ∨ pi.intent = IntentType.help) ∧
        (0.7 : ℚ) ≤ pi.confidence := by
  rw [← canHandleDirectly_iff]
  unfold routeIntent
  by_cases hc : canHandleDirectly pi = true
  · rw [if_pos hc]
    exact iff_of_true rfl hc
  · rw [if_neg hc]
    by_cases hct : canHandleWithTools env pi = true
    · rw [if_pos hct]
      exact iff_of_false (fun hstr => absurd hstr (by decide : ¬("tools" : String) = "direct")) hc
    · rw [if_neg hct]
      exact iff_of_false (fun hstr => absurd hstr (by decide : ¬("llm" : String) = "direct")) hc

/-- Stub collaborator environment with no registered tools and no
configured generative service. -/
def envNoTools : RouterEnv where
  tools := []
  analyzeProject := fun _ => Except.ok ""
  hasAnalyzeProject := false
  findFiles := fun _ => Except.ok ""
  hasFindFiles := false
  createFile := fun _ _ => Except.ok ""
  hasCreateFile := false
  llmConfigured := false
  chat := fun _ _ => Except.ok none

/-- A just-constructed store with the default window. -/
def freshEngine : ConversationEngine where
  maxContextTurns := 10
  currentContext := none
  conversationHistory := []
  sessionStart := 0

/-- Closed witness for C6: an intent classified `Status` at confidence
`0.69` is not routed `direct`. -/
theorem c6_witness :
    (routeIntent envNoTools freshEngine 0 0 "" (mkIntent IntentType.status 0.69)).1.handledBy ≠
      "direct" := by
  intro h
  have hiff :=
    (c6_direct_path_iff envNoTools freshEngine 0 0 "" (mkIntent IntentType.status 0.69)).mp h
  exact absurd hiff.2 (by norm_num [mkIntent])

/-- Claim C7. For every parsed intent not eligible for the direct path,
`route_intent` takes the tool path (`handled_by = "tools"`) if and only
if the confidence is at least `0.6` and the intent's mapped collaborator
(`Analyze→code_analyzer`, `Find→workspace_explorer`,
`Create→file_manager`) is registered; and whenever the mapped
collaborator is not registered, such an intent is routed to the `llm`
path instead. -/
theorem c7_tool_path_iff (env : RouterEnv) (e : ConversationEngine) (now elapsed : ℚ)
    (userInput : String) (pi : ParsedIntent) (hnd : canHandleDirectly pi = false) :
    ((routeIntent env e now elapsed userInput pi).1.handledBy = "tools" ↔
      (0.6 : ℚ) ≤ pi.confidence ∧
        ∃ t, toolIntents pi.intent = some t ∧ t ∈ env.tools) ∧
    (∀ t, toolIntents pi.intent = some t → t ∉ env.tools →
      (routeIntent env e now elapsed userInput pi).1.handledBy = "llm") := by
  have hc : ¬ canHandleDirectly pi = true := by
    rw [hnd]
    exact Bool.noConfusion
  constructor
  · rw [← canHandleWithTools_iff]
    unfold routeIntent
    rw [if_neg hc]
    by_cases hct : canHandleWithTools env pi = true
    · rw [if_pos hct]
      exact iff_of_true rfl hct
    · rw [if_neg hct]
      exact iff_of_false (fun hstr => absurd hstr (by decide : ¬("llm" : String) = "tools")) hct
  · intro t ht htm
    have hct : ¬ canHandleWithTools env pi = true := by
      intro habs
      obtain ⟨-, t', ht', htm'⟩ := (canHandleWithTools_iff env pi).mp habs
      rw [ht] at ht'
      cases ht'
      exact htm htm'
    unfold routeIntent
    rw [if_neg hc, if_neg hct]

/-- Closed witness for C7: an `Analyze` intent at confidence `0.9` is
routed to tools when `code_analyzer` is registered, and to the `llm`
path when it is not. -/
theorem c7_witness :
    (routeIntent
        { envNoTools with tools := ["code_analyzer"] }
        freshEngine 0 0 "" (mkIntent IntentType.analyze 0.9)).1.handledBy = "tools" ∧
    (routeIntent envNoTools freshEngine 0 0 "" (mkIntent IntentType.analyze 0.9)).1.handledBy =
      "llm" := by
  constructor
  · refine (c7_tool_path_iff { envNoTools with tools := ["code_analyzer"] } freshEngine 0 0 ""
      (mkIntent IntentType.analyze 0.9) (by with_unfolding_all rfl)).1.mpr ?_
    exact ⟨by norm_num [mkIntent], "code_analyzer", rfl, by simp⟩
  · exact (c7_tool_path_iff envNoTools freshEngine 0 0 "" (mkIntent IntentType.analyze 0.9)
      (by with_unfolding_all rfl)).2 "code_analyzer" rfl (by simp [envNoTools])

lemma updateContext_history (e : ConversationEngine) (turn : ConversationTurn) :
    (updateContext e turn).conversationHistory = e.conversationHistory := by
  unfold updateContext
  cases hctx : e.currentContext with
  | none => rfl
  | some ctx => rfl

lemma pySliceLast_getLast? (n : Nat) (xs : List α) (h : xs ≠ []) :
    (pySliceLast n xs).getLast? = xs.getLast? := by
  unfold pySliceLast
  by_cases hn : n = 0
  · rw [if_pos hn]
  · rw [if_neg hn]
    have hpos : 0 < xs.length := List.length_pos.mpr h
    exact getLast?_drop xs _ (by omega)

lemma addTurn_getLast (e : ConversationEngine) (now : ℚ) (userInput : String)
    (pi : ParsedIntent) (response : String) (executionTime : ℚ) (success : Bool) :
    (addTurn e now userInput pi response executionTime success).conversationHistory.getLast? =
      some { timestamp := now, userInput := userInput, parsedIntent := pi,
             response := response, executionTime := executionTime, success := success } := by
  unfold addTurn
  dsimp only
  rw [updateContext_history]
  dsimp only
  split_ifs with hcond
  · rw [pySliceLast_getLast? _ _ (by simp)]
    exact List.getLast?_concat _
  · exact List.getLast?_concat _

/-- Claim C1, counterexample. With the generative service *not configured*
(`llm_interface is None`) and an `Unknown` intent (no direct or tool
path), `route_intent` falls to the generative path but returns
`success = True` — `_handle_with_llm` returns the string
`"LLM no configurado"`, which is not `None` — contradicting the claim
that an unconfigured generative service yields `success = false`. -/
theorem c1_counterexample :
    (routeIntent envNoTools freshEngine 0 0 "" (mkIntent IntentType.unknown 0)).1.handledBy =
      "llm" ∧
    (routeIntent envNoTools freshEngine 0 0 "" (mkIntent IntentType.unknown 0)).1.success =
      true ∧
    (routeIntent envNoTools freshEngine 0 0 "" (mkIntent IntentType.unknown 0)).1.response =
      "LLM no configurado" := by
  refine ⟨?_, ?_, ?_⟩ <;> with_unfolding_all rfl

/-- Claim C1, amended. For every routed turn that falls to the generative
path, the result has `handled_by = "llm"`, and `success = false` holds
exactly when the service is configured and its invocation returns no
result (`None`); an unconfigured service or a raised invocation yields
an error *string* and hence `success = true`.  The recorded turn's
success flag always equals the returned one. -/
theorem c1_llm_unavailable (env : RouterEnv) (e : ConversationEngine) (now elapsed : ℚ)
    (userInput : String) (pi : ParsedIntent)
    (hnd : canHandleDirectly pi = false) (hnt : canHandleWithTools env pi = false) :
    (routeIntent env e now elapsed userInput pi).1.handledBy = "llm" ∧
    ((routeIntent env e now elapsed userInput pi).1.success = false ↔
      env.llmConfigured = true ∧
        env.chat (llmMessages e now userInput pi) (getTaskType pi) = Except.ok none) ∧
    (routeIntent env e now elapsed userInput pi).2.conversationHistory.getLast?.map
        (fun t => t.success) =
      some (routeIntent env e now elapsed userInput pi).1.success := by
  have hc : ¬ canHandleDirectly pi = true := by
    rw [hnd]
    exact Bool.noConfusion
  have hct : ¬ canHandleWithTools env pi = true := by
    rw [hnt]
    exact Bool.noConfusion
  unfold routeIntent
  rw [if_neg hc, if_neg hct]
  dsimp only
  refine ⟨rfl, ?_, ?_⟩
  · unfold handleWithLlm
    cases hcfg : env.llmConfigured with
    | false => simp [hcfg]
    | true =>
        cases hchat : env.chat (llmMessages e now userInput pi) (getTaskType pi) with
        | error msg => simp [hcfg, hchat]
        | ok r =>
            cases r with
            | none => simp [hcfg, hchat]
            | some s => simp [hcfg, hchat]
  · rw [addTurn_getLast]
    rfl

/-- Collaborator environment whose configured generative service
returns no result. -/
def envLlmNone : RouterEnv :=
  { envNoTools with llmConfigured := true, chat := fun _ _ => Except.ok none }

/-- Closed witness for C1's amended theorem: a configured service
returning `None` yields `handled_by = "llm"`, `success = false`, and a
recorded turn with `success = false`. -/
theorem c1_witness :
    (routeIntent envLlmNone freshEngine 0 0 "" (mkIntent IntentType.unknown 0)).1.success =
      false ∧
    (routeIntent envLlmNone freshEngine 0 0 "" (mkIntent IntentType.unknown 0)).1.handledBy =
      "llm" ∧
    (routeIntent envLlmNone freshEngine 0 0 ""
          (mkIntent IntentType.unknown 0)).2.conversationHistory.getLast?.map
        (fun t => t.success) =
      some false := by
  obtain ⟨h1, h2, h3⟩ :=
    c1_llm_unavailable envLlmNone freshEngine 0 0 "" (mkIntent IntentType.unknown 0)
      (by with_unfolding_all rfl) (by with_unfolding_all rfl)
  have hsucc :
      (routeIntent envLlmNone freshEngine 0 0 "" (mkIntent IntentType.unknown 0)).1.success =
        false :=
    h2.mpr ⟨rfl, rfl⟩
  refine ⟨hsucc, h1, ?_⟩
  rw [h3, hsucc]

/-! ### Context-snapshot claims -/

/-- An empty live context for concrete store states. -/
def ctx0 : ConversationContext where
  sessionId := "s"
  startedAt := 0
  currentTask := none
  currentTarget := none
  userPreferences := ⟨[], [], []⟩
  recentActions := []

/-- A store with an active session and empty history. -/
def engineWithCtx : ConversationEngine where
  maxContextTurns := 10
  currentContext := some ctx0
  conversationHistory := []
  sessionStart := 0

/-- Claim C2, counterexample. The snapshot includes
`session_duration_minutes`, computed from the wall clock at call time:
two calls on the *same* store state at clock readings `0` and `60`
differ (durations `0` and `1` minute), so the snapshot is not
call-for-call identical. -/
theorem c2_counterexample :
    getContextForLlm engineWithCtx 0 ≠ getContextForLlm engineWithCtx 60 := by
  with_unfolding_all decide

/-- Claim C2, amended. Two `get_context_for_llm` calls with no
intervening `record_turn` agree on every field except
`session_duration_minutes` (which reflects each call's clock reading),
and are fully identical when the two calls read the same clock value. -/
theorem c2_snapshot_idempotent (e : ConversationEngine) (now1 now2 : ℚ) :
    (getContextForLlm e now1).map stripDuration =
      (getContextForLlm e now2).map stripDuration ∧
    (now1 = now2 → getContextForLlm e now1 = getContextForLlm e now2) := by
  constructor
  · unfold getContextForLlm
    cases hctx : e.currentContext with
    | none => rfl
    | some ctx => rfl
  · intro hEq
    rw [hEq]

/-- Closed witness for C2's amended theorem: equal-clock calls coincide;
different-clock calls agree after clearing the duration field. -/
theorem c2_witness :
    getContextForLlm engineWithCtx 5 = getContextForLlm engineWithCtx 5 ∧
    (getContextForLlm engineWithCtx 0).map stripDuration =
      (getContextForLlm engineWithCtx 60).map stripDuration :=
  ⟨(c2_snapshot_idempotent engineWithCtx 5 5).2 rfl,
    (c2_snapshot_idempotent engineWithCtx 0 60).1⟩

/-! ### History-window claim -/

/-- The arguments of one `record_turn` call. -/
structure TurnInput where
  now : ℚ
  userInput : String
  parsedIntent : ParsedIntent
  response : String
  executionTime : ℚ
  success : Bool

/-- The `ConversationTurn` a call appends. -/
def mkTurn (i : TurnInput) : ConversationTurn where
  timestamp := i.now
  userInput := i.userInput
  parsedIntent := i.parsedIntent
  response := i.response
  executionTime := i.executionTime
  success := i.success

/-- A sequence of `record_turn` calls. -/
def runTurns (e : ConversationEngine) (l : List TurnInput) : ConversationEngine :=
  l.foldl
    (fun acc i => addTurn acc i.now i.userInput i.parsedIntent i.response i.executionTime i.success)
    e

lemma updateContext_maxContextTurns (e : ConversationEngine) (turn : ConversationTurn) :
    (updateContext e turn).maxContextTurns = e.maxContextTurns := by
  unfold updateContext
  cases hctx : e.currentContext with
  | none => rfl
  | some ctx => rfl

lemma addTurn_maxContextTurns (e : ConversationEngine) (now : ℚ) (userInput : String)
    (pi : ParsedIntent) (response : String) (executionTime : ℚ) (success : Bool) :
    (addTurn e now userInput pi response executionTime success).maxContextTurns =
      e.maxContextTurns := by
  unfold addTurn
  dsimp only
  rw [updateContext_maxContextTurns]

lemma mkTurn_def (i : TurnInput) :
    mkTurn i =
      ConversationTurn.mk i.now i.userInput i.parsedIntent i.response i.executionTime
        i.success := rfl

lemma addTurn_history (e : ConversationEngine) (now : ℚ) (userInput : String)
    (pi : ParsedIntent) (response : String) (executionTime : ℚ) (success : Bool)
    (hN : 1 ≤ e.maxContextTurns) :
    (addTurn e now userInput pi response executionTime success).conversationHistory =
      (e.conversationHistory ++
          [ConversationTurn.mk now userInput pi response executionTime success]).drop
        ((e.conversationHistory.length + 1) - e.maxContextTurns) := by
  unfold addTurn
  dsimp only
  rw [updateContext_history]
  dsimp only
  split_ifs with hcond
  · unfold pySliceLast
    rw [if_neg (by omega)]
    simp only [List.length_append, List.length_cons, List.length_nil, Nat.zero_add]
  · simp only [List.length_append, List.length_cons, List.length_nil] at hcond
    rw [Nat.sub_eq_zero_of_le (by omega), List.drop_zero]

lemma runTurns_history : ∀ (l : List TurnInput) (e : ConversationEngine),
    1 ≤ e.maxContextTurns → e.conversationHistory.length ≤ e.maxContextTurns →
    (runTurns e l).conversationHistory =
      (e.conversationHistory ++ l.map mkTurn).drop
        ((e.conversationHistory.length + l.length) - e.maxContextTurns) ∧
    (runTurns e l).maxContextTurns = e.maxContextTurns := by
  intro l
  induction l with
  | nil =>
      intro e hN hlen
      refine ⟨?_, rfl⟩
      simp only [runTurns, List.foldl_nil, List.map_nil, List.append_nil, List.length_nil,
        Nat.add_zero, Nat.sub_eq_zero_of_le hlen, List.drop_zero]
  | cons i l ih =>
      intro e hN hlen
      have hstep := addTurn_history e i.now i.userInput i.parsedIntent i.response
        i.executionTime i.success hN
      have hmax := addTurn_maxContextTurns e i.now i.userInput i.parsedIntent i.response
        i.executionTime i.success
      set e1 := addTurn e i.now i.userInput i.parsedIntent i.response i.executionTime i.success
        with he1
      have hrun : runTurns e (i :: l) = runTurns e1 l := rfl
      have hN1 : 1 ≤ e1.maxContextTurns := by rw [hmax]; exact hN
      have hlen1 : e1.conversationHistory.length ≤ e1.maxContextTurns := by
        rw [hstep, hmax]
        simp only [List.length_drop, List.length_append, List.length_cons, List.length_nil]
        omega
      obtain ⟨ihh, ihm⟩ := ih e1 hN1 hlen1
      refine ⟨?_, by rw [hrun, ihm, hmax]⟩
      rw [hrun, ihh, hstep, hmax]
      have hd : (e.conversationHistory.length + 1) - e.maxContextTurns ≤
          (e.conversationHistory ++
            [ConversationTurn.mk i.now i.userInput i.parsedIntent i.response i.executionTime
              i.success]).length := by
        simp only [List.length_append, List.length_cons, List.length_nil]
        omega
      simp only [List.length_drop, List.length_append, List.length_cons, List.length_nil,
        Nat.zero_add, List.map_cons]
      rw [← List.drop_append_of_le_length hd, List.drop_drop]
      have hshape : (e.conversationHistory ++
            [ConversationTurn.mk i.now i.userInput i.parsedIntent i.response i.executionTime
              i.success]) ++ l.map mkTurn =
          e.conversationHistory ++ (mkTurn i :: l.map mkTurn) := by
        rw [mkTurn_def, List.append_assoc, List.singleton_append]
      rw [hshape]
      congr 1
      omega

/-- Claim C8. For every sequence of `record_turn` calls on a store with a
window of `N ≥ 1` turns (default `10`), the history never exceeds `N`
turns; and after `N + 1` calls from an empty history the history is
exactly the last `N` appended turns in arrival order — the first
recorded turn is gone and the second is the oldest surviving element. -/
theorem c8_history_window (e : ConversationEngine) (l : List TurnInput)
    (hN : 1 ≤ e.maxContextTurns) (hlen : e.conversationHistory.length ≤ e.maxContextTurns) :
    (runTurns e l).conversationHistory.length ≤ e.maxContextTurns ∧
    (e.conversationHistory = [] → l.length = e.maxContextTurns + 1 →
      (runTurns e l).conversationHistory = (l.map mkTurn).drop 1) := by
  obtain ⟨hh, -⟩ := runTurns_history l e hN hlen
  constructor
  · rw [hh]
    simp only [List.length_drop, List.length_append, List.length_map]
    omega
  · intro hnil hcount
    rw [hh, hnil, List.nil_append, hcount]
    congr 1
    simp only [List.length_nil, Nat.zero_add]
    omega

/-- A single concrete `record_turn` call argument. -/
def turnInput0 : TurnInput where
  now := 0
  userInput := "hola"
  parsedIntent := mkIntent IntentType.unknown 0
  response := "ok"
  executionTime := 0
  success := true

/-- Closed witness for C8 at the default window `10` and `11` recorded
turns. -/
theorem c8_witness :
    (runTurns engineWithCtx (List.replicate 11 turnInput0)).conversationHistory.length ≤ 10 ∧
    (runTurns engineWithCtx (List.replicate 11 turnInput0)).conversationHistory =
      ((List.replicate 11 turnInput0).map mkTurn).drop 1 := by
  obtain ⟨h1, h2⟩ :=
    c8_history_window engineWithCtx (List.replicate 11 turnInput0) (by decide) (by decide)
  exact ⟨h1, h2 rfl (by decide)⟩

/-! ### Persistence round-trip claim -/

lemma loadTurn_saveTurn (t : ConversationTurn) : loadTurn (saveTurn t) = some t := by
  cases t with
  | mk ts ui pi resp et su =>
      cases pi with
      | mk it conf tgt ad ot =>
          cases it <;> rfl

lemma mapM_loadTurn_saveTurn : ∀ l : List ConversationTurn,
    (l.map saveTurn).mapM loadTurn = some l := by
  intro l
  induction l with
  | nil => rfl
  | cons t l ih =>
      simp only [List.map_cons, List.mapM_cons, loadTurn_saveTurn, ih, Option.pure_def,
        Option.bind_eq_bind, Option.some_bind]

/-- Claim C9. For every store state with an active session, `save_context`
followed by `load_context` into a fresh store reproduces a state with
the same `session_id`, the same number of history turns, and the same
`current_task` (the whole context record survives the round trip). -/
theorem c9_save_load_roundtrip (e fresh : ConversationEngine) (ctx : ConversationContext)
    (h : e.currentContext = some ctx) :
    ∃ d e', saveContext e = some d ∧ loadContext d fresh = some e' ∧
      e'.currentContext = some ctx ∧
      e'.currentContext.map (fun c => c.sessionId) = some ctx.sessionId ∧
      e'.conversationHistory.length = e.conversationHistory.length ∧
      e'.currentContext.map (fun c => c.currentTask) = some ctx.currentTask := by
  refine ⟨
    { context := ctx
      conversationHistory := e.conversationHistory.map saveTurn
      sessionStart := e.sessionStart },
    { fresh with
      currentContext := some ctx
      sessionStart := e.sessionStart
      conversationHistory := e.conversationHistory },
    ?_, ?_, rfl, rfl, rfl, rfl⟩
  · unfold saveContext
    rw [h]
    rfl
  · unfold loadContext
    dsimp only
    rw [mapM_loadTurn_saveTurn]
    rfl

/-- A store holding one completed turn in an active session. -/
def engineOneTurn : ConversationEngine where
  maxContextTurns := 10
  currentContext := some ctx0
  conversationHistory :=
    [ConversationTurn.mk 0 "hola" (mkIntent IntentType.analyze 0.72) "ok" 1 true]
  sessionStart := 0

/-- Closed witness for C9 on a concrete one-turn store. -/
theorem c9_witness :
    ∃ d e', saveContext engineOneTurn = some d ∧ loadContext d freshEngine = some e' ∧
      e'.currentContext = some ctx0 ∧
      e'.currentContext.map (fun c => c.sessionId) = some ctx0.sessionId ∧
      e'.conversationHistory.length = engineOneTurn.conversationHistory.length ∧
      e'.currentContext.map (fun c => c.currentTask) = some ctx0.currentTask :=
  c9_save_load_roundtrip engineOneTurn freshEngine ctx0 rfl
